import Mathlib

/-!
Verification of the Sentinel-Alpha trading loop (src/main.py) against its
natural-language specification.

Shallow embedding conventions:
* Python floats are modelled as exact rationals (`ℚ`); the z-score value,
  which involves a square root, lives in `ℝ`.
* Timestamps (`datetime.now(timezone.utc)`) are modelled as integers
  counting seconds; `timedelta(hours=24)` is the constant 86400.
* The pandas series `self.prices` is modelled as a `List ℚ` (values in
  insertion order); `self.wallet_value_history` (a deque of
  `(datetime, float)` pairs) as a `List (ℤ × ℚ)` with the front of the
  deque at the head of the list.
* External collaborators (wallet provider, trade capability) are modelled
  by small inductive types describing the outcome of the call the code
  makes on them; logging is modelled by returning the list of emitted log
  events.
-/

set_option autoImplicit false

namespace SentinelAlpha

/-- Configuration dataclass, src/main.py lines 23-41.  Python `int` fields are
`ℤ`, `float` fields are `ℚ`.  The fields that only feed the I/O shims
(log paths, API URL template, CDP credentials) do not enter any modelled
computation and are omitted.  Note the dataclass body performs no range
validation of any field. -/
structure Config where
  pair : String
  price_poll_seconds : ℤ
  z_window_points : ℤ
  z_buy_threshold : ℚ
  z_sell_threshold : ℚ
  dry_run : Bool
  max_trade_fraction : ℚ
  daily_stop_loss_fraction : ℚ
deriving Repr, DecidableEq

/-- Mean of a list of rationals: models `pandas.Series.mean()` over the
current window (src/main.py line 123). -/
def listMean (l : List ℚ) : ℚ := l.sum / l.length

/-- Population variance (ddof=0): models the square of
`pandas.Series.std(ddof=0)` (src/main.py line 124). -/
def listVarPop (l : List ℚ) : ℚ :=
  ((l.map (fun x => (x - listMean l) ^ 2)).sum) / l.length

/-- Population standard deviation, the value of
`self.prices.std(ddof=0)` at src/main.py line 124: the real square root of
the population variance. -/
noncomputable def listStd (l : List ℚ) : ℝ := Real.sqrt (listVarPop l)

/-- Python list/Series slice `l[-n:]` for an `int` n, as used by
`self.prices.iloc[-self.config.z_window_points :]` (src/main.py line 122).
For `n > 0` the start index `-n` is clamped to `max (len - n) 0`, keeping
the last `min n len` elements.  For `n ≤ 0` the literal `-n` is a
non-negative start index, so the slice drops the first `-n` elements —
in particular `n = 0` gives `l[0:] = l`, the whole series. -/
def ilocSliceFromNeg (n : ℤ) (l : List ℚ) : List ℚ :=
  if 0 < n then l.drop (l.length - n.toNat) else l.drop (-n).toNat

/-- Z-score of the latest price over the (already truncated) window:
the tail of `SentinelAlpha.update_series`, src/main.py lines 123-127.
`rolling_std == 0` returns `0.0`; otherwise `(price - rolling_mean) /
rolling_std`. -/
noncomputable def zscoreOf (w : List ℚ) (price : ℚ) : ℝ :=
  let rolling_mean := listMean w
  let rolling_std := listStd w
  if rolling_std = 0 then 0
  else ((price : ℝ) - (rolling_mean : ℝ)) / rolling_std

/-- `SentinelAlpha.update_series`, src/main.py lines 115-127.  Appends the
price to the series; if the series is still shorter than
`z_window_points` returns `None` (warm-up, no truncation); otherwise
truncates the series to `iloc[-z_window_points:]` and returns the z-score
of the new price over that window.  Returns the new series state together
with the optional z-score. -/
noncomputable def update_series (cfg : Config) (prices : List ℚ) (price : ℚ) :
    List ℚ × Option ℝ :=
  let s1 := prices ++ [price]
  if (s1.length : ℤ) < cfg.z_window_points then (s1, none)
  else
    let w := ilocSliceFromNeg cfg.z_window_points s1
    (w, some (zscoreOf w price))

/-- `SentinelAlpha.generate_signal`, src/main.py lines 172-179.  `None`
z-score (warm-up) gives no signal; otherwise strict threshold comparison,
buy side checked first. -/
noncomputable def generate_signal (cfg : Config) (z_score : Option ℝ) :
    Option String :=
  match z_score with
  | none => none
  | some z =>
    if z < (cfg.z_buy_threshold : ℝ) then some "BUY"
    else if (cfg.z_sell_threshold : ℝ) < z then some "SELL"
    else none

/-- The record-plus-evict step at the head of
`SentinelAlpha.check_daily_stop_loss`, src/main.py lines 148-153: append
the snapshot `(now, wallet_value)` to the history, then pop entries from
the front while the front entry's timestamp is older than
`now - timedelta(hours=24)`.  The `while ... popleft()` loop is exactly
`List.dropWhile` on the front. -/
def recordSnapshot (hist : List (ℤ × ℚ)) (now : ℤ) (wallet_value : ℚ) :
    List (ℤ × ℚ) :=
  (hist ++ [(now, wallet_value)]).dropWhile (fun e => e.1 < now - 86400)

/-- `SentinelAlpha.check_daily_stop_loss`, src/main.py lines 147-170.
Records the snapshot, evicts stale entries, then: empty history →
`False` (continue); `day_start_value ≤ 0` → `False`; otherwise halt
(`True`) iff `(day_start_value - wallet_value) / day_start_value ≥
daily_stop_loss_fraction`.  Returns the updated history and the halt
flag. -/
def check_daily_stop_loss (cfg : Config) (hist : List (ℤ × ℚ)) (now : ℤ)
    (wallet_value : ℚ) : List (ℤ × ℚ) × Bool :=
  let h2 := recordSnapshot hist now wallet_value
  match h2 with
  | [] => ([], false)
  | e :: _ =>
    let day_start_value := e.2
    if day_start_value ≤ 0 then (h2, false)
    else if (day_start_value - wallet_value) / day_start_value ≥
        cfg.daily_stop_loss_fraction then (h2, true)
    else (h2, false)

/-- Outcome of the balance call `SentinelAlpha.get_wallet_value` makes on
the wallet provider, src/main.py lines 129-145:
* `missing`: `self.wallet_provider is None` (coinbase-agentkit absent,
  credentials absent, or provider construction failed; lines 69-91);
* `noBalanceMethod`: a provider object with neither
  `get_total_balance_usd` nor a usable `get_balance` — the `try` body
  falls through to the final fallback without logging an error;
* `balanceReturns v`: the balance call succeeds with value `v`;
* `balanceRaises msg`: the balance call raises an exception. -/
inductive WalletProviderModel where
  | missing
  | noBalanceMethod
  | balanceReturns (v : ℚ)
  | balanceRaises (msg : String)
deriving Repr, DecidableEq

/-- `SentinelAlpha.get_wallet_value`, src/main.py lines 129-145.
`simulated` is `float(os.getenv("SIMULATED_WALLET_USD", "10000"))`.
Returns the wallet value used for the tick together with a flag telling
whether the error branch at lines 142-143 logged a failure.  Note that on
an exception the function logs and falls back to the simulated value —
it never propagates the failure. -/
def get_wallet_value (wp : WalletProviderModel) (simulated : ℚ) : ℚ × Bool :=
  match wp with
  | .missing => (simulated, false)
  | .noBalanceMethod => (simulated, false)
  | .balanceReturns v => (v, false)
  | .balanceRaises _ => (simulated, true)

/-- Rounding of a rational to the nearest integer with ties to even,
the behaviour of Python's builtin `round` (banker's rounding). -/
def roundHalfEven (x : ℚ) : ℤ :=
  let f := ⌊x⌋
  let r := x - f
  if r < 1 / 2 then f
  else if 1 / 2 < r then f + 1
  else if f % 2 = 0 then f else f + 1

/-- Python `round(x, nd)` on the exact-rational model of a float. -/
def pyRound (nd : ℕ) (x : ℚ) : ℚ :=
  (roundHalfEven (x * 10 ^ nd) : ℚ) / 10 ^ nd

/-- The `trade_details` dict built by `SentinelAlpha.execute_shadow_trade`,
src/main.py lines 185-193 (before the optional `tx` key is added). -/
structure TradeDetails where
  signal : String
  pair : String
  price : ℚ
  trade_notional_usd : ℚ
  trade_size_asset : ℚ
  dry_run : Bool
  network : String
deriving Repr, DecidableEq

/-- Construction of `trade_details`, src/main.py lines 182-193:
`trade_notional = wallet_value * max_trade_fraction`,
`quote_amount = round(trade_notional / price, 8)`, price and notional
rounded to 2 decimal places in the dict. -/
def mkDetails (cfg : Config) (signal : String) (price wallet_value : ℚ) :
    TradeDetails :=
  let trade_notional := wallet_value * cfg.max_trade_fraction
  let quote_amount := pyRound 8 (trade_notional / price)
  { signal := signal
    pair := cfg.pair
    price := pyRound 2 price
    trade_notional_usd := pyRound 2 trade_notional
    trade_size_asset := quote_amount
    dry_run := cfg.dry_run
    network := "base-sepolia" }

/-- One emitted log record of `execute_shadow_trade`; each constructor is
one `self.logger.*` call site in src/main.py:
* `shadowTradeInfo d`: line 196 or line 216, INFO `[SHADOW TRADE]`
  followed by the JSON of `d`;
* `liveTradeInfo d tx`: line 207, INFO `[LIVE TRADE]` with the JSON of
  `d` extended with the transaction id;
* `noTradeMethodWarning d`: lines 210-213, WARNING that the provider has
  no trade() method, falling back to shadow trade, with the JSON of `d`;
* `tradeFailedErrorLog msg`: line 215, ERROR that trade execution failed
  (carries only the exception text, not the trade details). -/
inductive LogEvent where
  | shadowTradeInfo (d : TradeDetails)
  | liveTradeInfo (d : TradeDetails) (tx : String)
  | noTradeMethodWarning (d : TradeDetails)
  | tradeFailedErrorLog (msg : String)
deriving Repr, DecidableEq

/-- Tells whether a log record is an INFO record tagged `[SHADOW TRADE]`. -/
def LogEvent.isShadowTag : LogEvent → Bool
  | .shadowTradeInfo _ => true
  | _ => false

/-- Outcome of the `self.wallet_provider.trade(...)` capability as seen by
`execute_shadow_trade`, src/main.py lines 199-216: the provider object may
lack a `trade` attribute, or the call may return a transaction id or
raise. -/
inductive TradeCapability where
  | noMethod
  | succeeds (tx : String)
  | raises (msg : String)
deriving Repr, DecidableEq

/-- `SentinelAlpha.execute_shadow_trade`, src/main.py lines 181-216,
returning the list of emitted log records.  The guard
`if self.config.dry_run or self.wallet_provider is None` (line 195) is
rendered as the `dry_run` test followed by the `none` provider arm; the
remaining arms are the `hasattr(..., "trade")` dispatch, the successful
live call, and the `except` fallback which logs the error and then the
same shadow-trade record. -/
def execute_shadow_trade (cfg : Config) (provider : Option TradeCapability)
    (signal : String) (price wallet_value : ℚ) : List LogEvent :=
  let d := mkDetails cfg signal price wallet_value
  if cfg.dry_run then [.shadowTradeInfo d]
  else
    match provider with
    | none => [.shadowTradeInfo d]
    | some .noMethod => [.noTradeMethodWarning d]
    | some (.succeeds tx) => [.liveTradeInfo d tx]
    | some (.raises m) => [.tradeFailedErrorLog m, .shadowTradeInfo d]

/-- Mutable state of the `SentinelAlpha` object that the tick loop reads
and writes: `self.prices`, `self.wallet_value_history`, `self.running`
(src/main.py lines 47-50). -/
structure BotState where
  prices : List ℚ
  wallet_value_history : List (ℤ × ℚ)
  running : Bool
deriving Repr, DecidableEq

/-- Startup of the process, modelling `Config()` construction
(src/main.py lines 23-41) followed by `SentinelAlpha.__init__`
(lines 45-53): the dataclass performs no validation of any numeric field
and `__init__` only wires logging and the wallet provider (both of which
swallow their own failures), so startup never raises a configuration
error; the bot always starts with an empty price series, an empty wallet
history and `running = True`.  The `Except` result records whether
startup aborts with a fatal error: it is always `ok`. -/
def startup (_cfg : Config) : Except String BotState :=
  Except.ok { prices := [], wallet_value_history := [], running := true }

/-- External inputs consumed by one iteration of `SentinelAlpha.run`
(src/main.py lines 226-251): the current clock reading, the result of
`fetch_price` (`None` on any fetch failure), and the behaviour of the
wallet provider's balance call this tick. -/
structure TickInputs where
  now : ℤ
  fetched_price : Option ℚ
  wallet : WalletProviderModel

/-- Observable outcome of one iteration of the `while self.running` loop:
the updated bot state, whether the wallet-fetch error branch logged
(line 143), whether the critical halt message was logged (lines 164-168),
the signal handed to `execute_shadow_trade` (`none` when no trade was
executed this tick, line 248), and whether the per-tick summary line was
logged (lines 240-246). -/
structure TickOutcome where
  state : BotState
  walletErrorLogged : Bool
  haltLogged : Bool
  tradeSignal : Option String
  tickLogged : Bool

/-- One iteration of the body of `SentinelAlpha.run`, src/main.py lines
226-251, for `simulated = SIMULATED_WALLET_USD`.  A failed price fetch
sleeps and continues with nothing mutated.  Otherwise the wallet value is
fetched (never a failure: a collaborator error is logged and replaced by
the simulated value), the snapshot is recorded and the stop-loss guard
evaluated; on halt the loop sets `running = False` and breaks before
touching the price series; otherwise the price is inserted, the z-score
and signal derived, the tick summary logged and, if a signal is present,
the trade executed. -/
noncomputable def run_tick (cfg : Config) (simulated : ℚ) (inp : TickInputs)
    (st : BotState) : TickOutcome :=
  match inp.fetched_price with
  | none =>
    { state := st, walletErrorLogged := false, haltLogged := false
      tradeSignal := none, tickLogged := false }
  | some price =>
    let wv := get_wallet_value inp.wallet simulated
    let wallet_value := wv.1
    let guard := check_daily_stop_loss cfg st.wallet_value_history inp.now
      wallet_value
    if guard.2 then
      { state :=
          { prices := st.prices, wallet_value_history := guard.1,
            running := false },
        walletErrorLogged := wv.2, haltLogged := true,
        tradeSignal := none, tickLogged := false }
    else
      let upd := update_series cfg st.prices price
      let signal := generate_signal cfg upd.2
      { state :=
          { prices := upd.1, wallet_value_history := guard.1,
            running := st.running },
        walletErrorLogged := wv.2, haltLogged := false,
        tradeSignal := signal, tickLogged := true }

/-- Iterated insertion into the rolling window: the price-series state
after feeding a whole list of fetched prices through
`update_series`, starting from the empty series the bot holds at startup
(src/main.py line 48). -/
noncomputable def runSeries (cfg : Config) (ps : List ℚ) : List ℚ :=
  ps.foldl (fun s p => (update_series cfg s p).1) []

/-- Default configuration: the values of the environment defaults in
src/main.py lines 23-41 (omitted I/O-only fields aside). -/
def cfgBase : Config :=
  { pair := "BTC-USD"
    price_poll_seconds := 60
    z_window_points := 24
    z_buy_threshold := -2
    z_sell_threshold := 2
    dry_run := true
    max_trade_fraction := 2 / 100
    daily_stop_loss_fraction := 5 / 100 }

/-- Default configuration with a small window for concrete evaluation. -/
def cfgSmall : Config := { cfgBase with z_window_points := 2 }

/-- Default configuration with live trading selected (DRY_RUN=false). -/
def cfgLive : Config := { cfgBase with dry_run := false }

/-- A configuration with a non-positive poll interval and window size, as
produced by `PRICE_POLL_SECONDS=-5` and `Z_WINDOW_POINTS=0`. -/
def cfgBad : Config :=
  { cfgBase with price_poll_seconds := -5, z_window_points := 0 }

/-- C2 counterexample: the claim says a non-positive poll interval or
window size causes a fatal configuration error at startup.  In the code
the `Config` dataclass performs no validation and `__init__` raises no
configuration error, so startup with `price_poll_seconds = -5` and
`z_window_points = 0` succeeds and the loop would begin with those
values. -/
theorem startup_accepts_nonpositive_values :
    cfgBad.price_poll_seconds = -5 ∧ cfgBad.z_window_points = 0 ∧
      startup cfgBad =
        Except.ok { prices := [], wallet_value_history := [], running := true } :=
  ⟨rfl, rfl, rfl⟩

/-- C2 (amended): no numeric configuration value is validated at startup;
whatever values the environment parses to — including non-positive poll
intervals and window sizes — are accepted, and startup always succeeds
with the initial bot state.  There is no fatal configuration error
path. -/
theorem startup_never_fails (cfg : Config) :
    startup cfg =
      Except.ok { prices := [], wallet_value_history := [], running := true } :=
  rfl

/-- C9: while the series (after inserting the new price) is still strictly
shorter than `z_window_points`, `update_series` returns no z-score, and
`generate_signal` maps an absent z-score to no signal regardless of the
configured thresholds, so no trade can be issued during warm-up. -/
theorem warmup_yields_no_signal (cfg : Config) (s : List ℚ) (p : ℚ)
    (h : ((s ++ [p]).length : ℤ) < cfg.z_window_points) :
    (update_series cfg s p).2 = none ∧
      ∀ cfg2 : Config, generate_signal cfg2 none = none := by
  refine ⟨?_, fun cfg2 => rfl⟩
  unfold update_series
  simp only [if_pos h]

/-- C9 witness: with the default 24-point window, inserting the first
price yields no z-score, and the absent z-score yields no signal. -/
theorem warmup_yields_no_signal_witness :
    (update_series cfgBase [] 1).2 = none ∧
      generate_signal cfgBase none = none := by
  have h := warmup_yields_no_signal cfgBase [] 1 (by decide)
  exact ⟨h.1, h.2 cfgBase⟩

/-- C8: signal classification uses strict inequalities: for a present
z-score `z` the result is BUY exactly when `z < buyZ` and SELL exactly
when `z > sellZ`, and no signal exactly when `z` lies in the closed
interval `[buyZ, sellZ]` (assuming the buy threshold does not exceed the
sell threshold, as in the intended configuration). -/
theorem generate_signal_strict (cfg : Config) (z : ℝ)
    (hbs : cfg.z_buy_threshold ≤ cfg.z_sell_threshold) :
    (generate_signal cfg (some z) = some "BUY" ↔ z < (cfg.z_buy_threshold : ℝ)) ∧
    (generate_signal cfg (some z) = some "SELL" ↔ (cfg.z_sell_threshold : ℝ) < z) ∧
    (generate_signal cfg (some z) = none ↔
      (cfg.z_buy_threshold : ℝ) ≤ z ∧ z ≤ (cfg.z_sell_threshold : ℝ)) := by
  have hbs' : (cfg.z_buy_threshold : ℝ) ≤ (cfg.z_sell_threshold : ℝ) := by
    exact_mod_cast hbs
  unfold generate_signal
  by_cases hb : z < (cfg.z_buy_threshold : ℝ)
  · have hns : ¬ (cfg.z_sell_threshold : ℝ) < z := by linarith
    simp [hb, hns]
  · by_cases hs : (cfg.z_sell_threshold : ℝ) < z
    · simp [hb, hs]
    · simp [hb, hs]
      exact ⟨by linarith, by linarith⟩

/-- C8 witness: with `buyZ = -2` and `sellZ = 2`, a z-score of exactly
`-2` classifies as no signal, while `-2.0001` classifies as BUY. -/
theorem generate_signal_strict_witness :
    generate_signal cfgBase (some (-2 : ℝ)) = none ∧
      generate_signal cfgBase (some (-20001 / 10000 : ℝ)) = some "BUY" := by
  constructor
  · exact (generate_signal_strict cfgBase (-2 : ℝ)
      (by norm_num [cfgBase])).2.2.mpr
      (by constructor <;> norm_num [cfgBase])
  · exact (generate_signal_strict cfgBase (-20001 / 10000 : ℝ)
      (by norm_num [cfgBase])).1.mpr (by norm_num [cfgBase])

/-- C3: after recording the current snapshot, the guard continues when the
surviving record is empty or the oldest surviving value is ≤ 0, and
otherwise halts exactly when `(dayStartValue - currentValue) /
dayStartValue ≥ daily_stop_loss_fraction`. -/
theorem check_daily_stop_loss_spec (cfg : Config) (hist : List (ℤ × ℚ))
    (now : ℤ) (v : ℚ) :
    (recordSnapshot hist now v = [] →
      check_daily_stop_loss cfg hist now v = ([], false)) ∧
    (∀ e rest, recordSnapshot hist now v = e :: rest →
      (e.2 ≤ 0 → (check_daily_stop_loss cfg hist now v).2 = false) ∧
      (0 < e.2 →
        ((check_daily_stop_loss cfg hist now v).2 = true ↔
          (e.2 - v) / e.2 ≥ cfg.daily_stop_loss_fraction))) := by
  constructor
  · intro h
    simp only [check_daily_stop_loss]
    rw [h]
  · intro e rest h
    constructor
    · intro h0
      simp only [check_daily_stop_loss]
      rw [h]
      simp [h0]
    · intro hpos
      have h0 : ¬ e.2 ≤ 0 := not_le.mpr hpos
      simp only [check_daily_stop_loss]
      rw [h]
      by_cases hd : (e.2 - v) / e.2 ≥ cfg.daily_stop_loss_fraction
      · simp [h0, hd]
      · simp [h0, hd]

/-- C3 witness: with `stopLossFraction = 0.05` and a day-start snapshot of
1000, a current value of 940 (drawdown 0.06) halts and a current value of
960 (drawdown 0.04) continues. -/
theorem check_daily_stop_loss_spec_witness :
    (check_daily_stop_loss cfgBase [(0, 1000)] 3600 940).2 = true ∧
      (check_daily_stop_loss cfgBase [(0, 1000)] 3600 960).2 = false := by
  constructor
  · have h := (check_daily_stop_loss_spec cfgBase [(0, 1000)] 3600 940).2
      (0, 1000) [(3600, 940)] (by decide)
    exact (h.2 (by norm_num)).mpr (by norm_num [cfgBase])
  · have h := (check_daily_stop_loss_spec cfgBase [(0, 1000)] 3600 960).2
      (0, 1000) [(3600, 960)] (by decide)
    refine Bool.eq_false_iff.mpr (fun hx => ?_)
    have hP := (h.2 (by norm_num)).mp hx
    norm_num [cfgBase] at hP

/-- Prefix eviction on a time-ordered history equals time filtering:
popping stale entries from the front of a history whose timestamps are
non-decreasing and not in the future removes exactly the entries that are
older than the cutoff. -/
theorem dropWhile_stale_eq_filter (hist : List (ℤ × ℚ)) (now : ℤ) (v : ℚ)
    (c : ℤ) (hc : c ≤ now)
    (hsort : hist.Pairwise (fun a b => a.1 ≤ b.1))
    (hnow : ∀ e ∈ hist, e.1 ≤ now) :
    (hist ++ [(now, v)]).dropWhile (fun e => e.1 < c) =
      hist.filter (fun e => c ≤ e.1) ++ [(now, v)] := by
  induction hist with
  | nil => simp [List.dropWhile, not_lt.mpr hc]
  | cons a t ih =>
    rw [List.pairwise_cons] at hsort
    have ha := hsort.1
    have hat : ∀ e ∈ t, e.1 ≤ now :=
      fun e he => hnow e (List.mem_cons_of_mem _ he)
    by_cases hac : a.1 < c
    · have hnc : ¬ c ≤ a.1 := not_le.mpr hac
      simp only [List.cons_append, List.dropWhile_cons, List.filter_cons]
      simp [hac, hnc, ih hsort.2 hat]
    · have hca : c ≤ a.1 := not_lt.mp hac
      have hfilter : t.filter (fun e => c ≤ e.1) = t := by
        rw [List.filter_eq_self]
        intro e he
        exact decide_eq_true (le_trans hca (ha e he))
      simp only [List.cons_append, List.dropWhile_cons, List.filter_cons]
      simp [hac, hca, hfilter]

/-- C4: a `record` call appends the new snapshot and keeps exactly the
previously held snapshots whose timestamps are not older than
`now - 24h`, provided the history is time-ordered with no entry in the
future (which the loop's monotone clock guarantees); consequently the
record is never empty after a record call. -/
theorem recordSnapshot_spec (hist : List (ℤ × ℚ)) (now : ℤ) (v : ℚ)
    (hsort : hist.Pairwise (fun a b => a.1 ≤ b.1))
    (hnow : ∀ e ∈ hist, e.1 ≤ now) :
    recordSnapshot hist now v =
      hist.filter (fun e => now - 86400 ≤ e.1) ++ [(now, v)] ∧
    recordSnapshot hist now v ≠ [] := by
  have h := dropWhile_stale_eq_filter hist now v (now - 86400) (by omega)
    hsort hnow
  refine ⟨h, ?_⟩
  rw [recordSnapshot, h]
  simp

/-- C4 witness: for the snapshot sequence `(t0, 1000)`, `(t0+1h, 1000)`,
`(t0+25h, 1000)` (seconds: 0, 3600, 90000) with the 24-hour window,
recording the third snapshot evicts the `t0` entry, leaves the record
nonempty, and the day-start (oldest surviving) entry becomes the `t0+1h`
snapshot. -/
theorem recordSnapshot_spec_witness :
    recordSnapshot [(0, 1000), (3600, 1000)] 90000 1000 =
      [(3600, 1000), (90000, 1000)] ∧
    recordSnapshot [(0, 1000), (3600, 1000)] 90000 1000 ≠ [] ∧
    (recordSnapshot [(0, 1000), (3600, 1000)] 90000 1000).head? =
      some (3600, 1000) := by
  have h := recordSnapshot_spec [(0, 1000), (3600, 1000)] 90000 1000
    (by decide) (by decide)
  have heq : recordSnapshot [(0, 1000), (3600, 1000)] 90000 1000 =
      [(3600, 1000), (90000, 1000)] := by
    rw [h.1]; decide
  exact ⟨heq, h.2, by rw [heq]; rfl⟩

/-- One insertion always leaves the series within the configured capacity,
for a positive configured capacity. -/
theorem update_series_length_le (cfg : Config) (h : 0 < cfg.z_window_points)
    (s : List ℚ) (p : ℚ) :
    (((update_series cfg s p).1).length : ℤ) ≤ cfg.z_window_points := by
  unfold update_series
  by_cases hlt : (((s ++ [p]).length : ℤ)) < cfg.z_window_points
  · simp only [if_pos hlt]
    exact le_of_lt hlt
  · simp only [if_neg hlt]
    unfold ilocSliceFromNeg
    simp only [if_pos h]
    rw [List.length_drop]
    omega

/-- Folding any price sequence through `update_series` from the empty
startup series keeps the series within the configured capacity. -/
theorem runSeries_length_le (cfg : Config) (h : 0 < cfg.z_window_points)
    (ps : List ℚ) :
    ((runSeries cfg ps).length : ℤ) ≤ cfg.z_window_points := by
  suffices haux : ∀ (qs s : List ℚ), (s.length : ℤ) ≤ cfg.z_window_points →
      ((qs.foldl (fun s p => (update_series cfg s p).1) s).length : ℤ) ≤
        cfg.z_window_points by
    exact haux ps [] (by simpa using le_of_lt h)
  intro qs
  induction qs with
  | nil => intro s hs; simpa using hs
  | cons q qt ih =>
    intro s _
    simp only [List.foldl_cons]
    exact ih _ (update_series_length_le cfg h s q)

/-- C5: for every sequence of inserted prices the rolling window's size is
at most the configured capacity after every insertion (capacity
positive). -/
theorem window_size_le_capacity (cfg : Config) (h : 0 < cfg.z_window_points) :
    (∀ s p, (((update_series cfg s p).1).length : ℤ) ≤ cfg.z_window_points) ∧
    (∀ ps, ((runSeries cfg ps).length : ℤ) ≤ cfg.z_window_points) :=
  ⟨fun s p => update_series_length_le cfg h s p,
   fun ps => runSeries_length_le cfg h ps⟩

/-- C5 witness: with a 2-point window, inserting three prices in sequence
leaves the series within capacity, as does a single insertion into a full
window. -/
theorem window_size_le_capacity_witness :
    ((runSeries cfgSmall [1, 2, 3]).length : ℤ) ≤ cfgSmall.z_window_points ∧
    (((update_series cfgSmall [1, 2] 3).1).length : ℤ) ≤
      cfgSmall.z_window_points := by
  have h := window_size_le_capacity cfgSmall (by decide)
  exact ⟨h.2 [1, 2, 3], h.1 [1, 2] 3⟩

/-- Sum of a constant list. -/
theorem list_sum_const (p : ℚ) (l : List ℚ) (h : ∀ q ∈ l, q = p) :
    l.sum = l.length * p := by
  induction l with
  | nil => simp
  | cons a t ih =>
    rw [List.sum_cons, ih (fun q hq => h q (by simp [hq])), h a (by simp),
      List.length_cons]
    push_cast
    ring

/-- Mean of a nonempty constant list is the constant. -/
theorem listMean_const (l : List ℚ) (p : ℚ) (hl : l ≠ [])
    (h : ∀ q ∈ l, q = p) : listMean l = p := by
  unfold listMean
  rw [list_sum_const p l h]
  have hn : (l.length : ℚ) ≠ 0 := by
    exact_mod_cast List.length_pos.mpr hl |>.ne'
  field_simp

/-- Population variance of a nonempty constant list is zero. -/
theorem listVarPop_const (l : List ℚ) (p : ℚ) (hl : l ≠ [])
    (h : ∀ q ∈ l, q = p) : listVarPop l = 0 := by
  unfold listVarPop
  have hz : (l.map (fun x => (x - listMean l) ^ 2)).sum = 0 := by
    apply List.sum_eq_zero
    intro x hx
    rcases List.mem_map.mp hx with ⟨q, hq, rfl⟩
    rw [listMean_const l p hl h, h q hq]
    ring
  rw [hz]
  simp

/-- When the population variance of the window is zero the computed
standard deviation is zero, so the z-score takes the degenerate branch
and is exactly zero — no division by zero occurs. -/
theorem zscoreOf_of_var_zero (w : List ℚ) (p : ℚ) (h : listVarPop w = 0) :
    zscoreOf w p = 0 := by
  unfold zscoreOf listStd
  rw [h]
  simp

/-- C6: for every window at or past the warm-up minimum whose prices are
all equal, the z-score computation returns exactly `0.0` (the total
function takes the zero-deviation branch; it cannot divide by zero or
fail). -/
theorem flat_window_zscore_zero (cfg : Config) (s : List ℚ) (p : ℚ)
    (hN : 0 < cfg.z_window_points)
    (hflat : ∀ q ∈ s, q = p)
    (hwarm : cfg.z_window_points ≤ ((s ++ [p]).length : ℤ)) :
    (update_series cfg s p).2 = some 0 := by
  unfold update_series
  have hnlt : ¬ ((s ++ [p]).length : ℤ) < cfg.z_window_points :=
    not_lt.mpr hwarm
  simp only [if_neg hnlt]
  have hall : ∀ q ∈ ilocSliceFromNeg cfg.z_window_points (s ++ [p]), q = p := by
    intro q hq
    have hmem : q ∈ s ++ [p] := by
      unfold ilocSliceFromNeg at hq
      split at hq
      · exact List.mem_of_mem_drop hq
      · exact List.mem_of_mem_drop hq
    rcases List.mem_append.mp hmem with h1 | h2
    · exact hflat q h1
    · simpa using h2
  have hlen0 : 0 < (ilocSliceFromNeg cfg.z_window_points (s ++ [p])).length := by
    unfold ilocSliceFromNeg
    rw [if_pos hN, List.length_drop]
    omega
  have hne : ilocSliceFromNeg cfg.z_window_points (s ++ [p]) ≠ [] :=
    List.ne_nil_of_length_pos hlen0
  have hvar := listVarPop_const _ p hne hall
  show some (zscoreOf (ilocSliceFromNeg cfg.z_window_points (s ++ [p])) p) =
    some 0
  rw [zscoreOf_of_var_zero _ p hvar]

/-- C6 witness: with a 2-point window and the flat price sequence 5, 5,
the second insertion reaches warm-up and the z-score is exactly zero. -/
theorem flat_window_zscore_zero_witness :
    (update_series cfgSmall [5] 5).2 = some 0 :=
  flat_window_zscore_zero cfgSmall [5] 5 (by decide) (by decide) (by decide)

/-- C10: the warm-up minimum and the window capacity are the same single
configuration value `z_window_points`: with a positive configured value,
an insertion yields a z-score exactly when the series after insertion
holds at least `z_window_points` observations; during warm-up nothing is
evicted and no z-score is produced; at or past warm-up the series is
truncated to exactly the most recent `z_window_points` observations and
the z-score is computed over exactly that window. -/
theorem capacity_equals_warmup_minimum (cfg : Config)
    (hN : 0 < cfg.z_window_points) (s : List ℚ) (p : ℚ) :
    ((update_series cfg s p).2.isSome ↔
      cfg.z_window_points ≤ ((s ++ [p]).length : ℤ)) ∧
    (((s ++ [p]).length : ℤ) < cfg.z_window_points →
      (update_series cfg s p).1 = s ++ [p] ∧
      (update_series cfg s p).2 = none) ∧
    (cfg.z_window_points ≤ ((s ++ [p]).length : ℤ) →
      (update_series cfg s p).1 =
        (s ++ [p]).drop ((s ++ [p]).length - cfg.z_window_points.toNat) ∧
      (((update_series cfg s p).1).length : ℤ) = cfg.z_window_points ∧
      (update_series cfg s p).2 = some (zscoreOf
        ((s ++ [p]).drop ((s ++ [p]).length - cfg.z_window_points.toNat))
        p)) := by
  by_cases hlt : ((s ++ [p]).length : ℤ) < cfg.z_window_points
  · have he : update_series cfg s p = (s ++ [p], none) := by
      unfold update_series
      rw [if_pos hlt]
    refine ⟨?_, fun _ => ⟨by rw [he], by rw [he]⟩,
      fun hge => absurd hge (not_le.mpr hlt)⟩
    rw [he]
    simp only [Option.isSome_none, Bool.false_eq_true, false_iff]
    omega
  · have hge : cfg.z_window_points ≤ ((s ++ [p]).length : ℤ) := not_lt.mp hlt
    have hw : ilocSliceFromNeg cfg.z_window_points (s ++ [p]) =
        (s ++ [p]).drop ((s ++ [p]).length - cfg.z_window_points.toNat) := by
      unfold ilocSliceFromNeg
      rw [if_pos hN]
    have he : update_series cfg s p =
        ((s ++ [p]).drop ((s ++ [p]).length - cfg.z_window_points.toNat),
          some (zscoreOf
            ((s ++ [p]).drop ((s ++ [p]).length - cfg.z_window_points.toNat))
            p)) := by
      unfold update_series
      rw [if_neg hlt]
      show (ilocSliceFromNeg cfg.z_window_points (s ++ [p]),
        some (zscoreOf (ilocSliceFromNeg cfg.z_window_points (s ++ [p])) p)) = _
      rw [hw]
    refine ⟨?_, fun hl => absurd hl hlt, fun _ => ⟨by rw [he], ?_, by rw [he]⟩⟩
    · rw [he]
      simp only [Option.isSome_some, true_iff]
      exact hge
    · rw [he]
      show (((s ++ [p]).drop
        ((s ++ [p]).length - cfg.z_window_points.toNat)).length : ℤ) =
        cfg.z_window_points
      rw [List.length_drop]
      omega

/-- C10 witness: with a 2-point window, inserting a second price produces
a z-score, the retained series is exactly the last two observations, its
size is exactly the configured value, and the z-score is computed over
that retained window. -/
theorem capacity_equals_warmup_minimum_witness :
    (update_series cfgSmall [5] 5).2.isSome ∧
    (update_series cfgSmall [5] 5).1 = [5, 5] ∧
    (((update_series cfgSmall [5] 5).1).length : ℤ) =
      cfgSmall.z_window_points := by
  have h := capacity_equals_warmup_minimum cfgSmall (by decide) [5] 5
  have hge : cfgSmall.z_window_points ≤ ((([5] : List ℚ) ++ [5]).length : ℤ) :=
    by decide
  refine ⟨h.1.mpr hge, ?_, (h.2.2 hge).2.1⟩
  rw [(h.2.2 hge).1]
  rfl

/-- C7 counterexample: the claim says that when the live collaborator
exposes no trade capability the executor produces one record tagged as a
shadow/fallback trade, identical in content to a deliberate shadow
trade's record.  In the code this path logs a WARNING from a different
call site with a different message (src/main.py lines 210-213) and emits
no `[SHADOW TRADE]` record at all: with live mode selected, a provider
without a `trade` method, signal BUY, price 50000 and wallet 10000, the
log output is exactly one warning record, contains zero shadow-tagged
records, and differs from the single shadow record a deliberate shadow
trade would emit. -/
theorem no_trade_method_logs_warning_not_shadow :
    execute_shadow_trade cfgLive (some .noMethod) "BUY" 50000 10000 =
      [.noTradeMethodWarning (mkDetails cfgLive "BUY" 50000 10000)] ∧
    (execute_shadow_trade cfgLive (some .noMethod) "BUY" 50000 10000).countP
      LogEvent.isShadowTag = 0 ∧
    execute_shadow_trade cfgLive (some .noMethod) "BUY" 50000 10000 ≠
      [.shadowTradeInfo (mkDetails cfgLive "BUY" 50000 10000)] := by
  refine ⟨rfl, rfl, fun h => ?_⟩
  have h2 : ([LogEvent.noTradeMethodWarning
        (mkDetails cfgLive "BUY" 50000 10000)] : List LogEvent) =
      [LogEvent.shadowTradeInfo (mkDetails cfgLive "BUY" 50000 10000)] := by
    rw [← h]
    rfl
  simp at h2

/-- C7 (amended): on a live dispatch whose collaborator call raises, the
executor logs the error and then exactly one `[SHADOW TRADE]` intent
record carrying the same trade details a deliberate (provider-less)
shadow trade would log — never zero or two, and the failure is never
propagated; when the collaborator exposes no trade capability it instead
logs exactly one warning record embedding those same trade details, and
no shadow-tagged record. -/
theorem live_dispatch_failure_fallback (cfg : Config) (sig : String)
    (price wallet_value : ℚ) (m : String)
    (hlive : cfg.dry_run = false) :
    (execute_shadow_trade cfg (some (.raises m)) sig price wallet_value =
      [.tradeFailedErrorLog m,
        .shadowTradeInfo (mkDetails cfg sig price wallet_value)]) ∧
    (execute_shadow_trade cfg none sig price wallet_value =
      [.shadowTradeInfo (mkDetails cfg sig price wallet_value)]) ∧
    (execute_shadow_trade cfg (some .noMethod) sig price wallet_value =
      [.noTradeMethodWarning (mkDetails cfg sig price wallet_value)]) ∧
    ((execute_shadow_trade cfg (some (.raises m)) sig price
      wallet_value).countP LogEvent.isShadowTag = 1) ∧
    ((execute_shadow_trade cfg (some .noMethod) sig price
      wallet_value).countP LogEvent.isShadowTag = 0) := by
  unfold execute_shadow_trade
  rw [hlive]
  simp [List.countP, List.countP.go, LogEvent.isShadowTag]

/-- C7 witness: with live mode selected and a collaborator whose trade
call raises, the executor emits the error record followed by exactly one
shadow-tagged intent record with the computed trade details. -/
theorem live_dispatch_failure_fallback_witness :
    execute_shadow_trade cfgLive (some (.raises "boom")) "BUY" 50000 10000 =
      [.tradeFailedErrorLog "boom",
        .shadowTradeInfo (mkDetails cfgLive "BUY" 50000 10000)] ∧
    (execute_shadow_trade cfgLive (some (.raises "boom")) "BUY" 50000
      10000).countP LogEvent.isShadowTag = 1 := by
  have h := live_dispatch_failure_fallback cfgLive "BUY" 50000 10000 "boom" rfl
  exact ⟨h.1, h.2.2.2.1⟩

/-- C1 counterexample: the claim says that on a tick whose
portfolio-valuation fetch fails no snapshot is recorded and the drawdown
guard is not evaluated.  In the code `get_wallet_value` catches the
failure, logs it and returns the simulated fallback value (src/main.py
lines 142-145), after which the loop records that value and evaluates the
guard exactly as on any other tick: starting from the freshly initialized
state, a tick whose wallet balance call raises still appends the snapshot
`(0, 10000)` to the drawdown record. -/
theorem wallet_failure_still_records_snapshot :
    (run_tick cfgBase 10000
        { now := 0, fetched_price := some 100,
          wallet := .balanceRaises "boom" }
        { prices := [], wallet_value_history := [], running := true }
      ).state.wallet_value_history = [(0, 10000)] ∧
    (run_tick cfgBase 10000
        { now := 0, fetched_price := some 100,
          wallet := .balanceRaises "boom" }
        { prices := [], wallet_value_history := [], running := true }
      ).state.wallet_value_history ≠
      ({ prices := [], wallet_value_history := [], running := true } :
        BotState).wallet_value_history := by
  have hg : check_daily_stop_loss cfgBase [] 0 10000 = ([(0, 10000)], false) := by
    norm_num [check_daily_stop_loss, recordSnapshot, List.dropWhile_cons,
      cfgBase]
  have hrec : (run_tick cfgBase 10000
      { now := 0, fetched_price := some 100, wallet := .balanceRaises "boom" }
      { prices := [], wallet_value_history := [], running := true }
    ).state.wallet_value_history = [(0, 10000)] := by
    simp only [run_tick, get_wallet_value]
    rw [hg]
    simp
  exact ⟨hrec, by rw [hrec]; simp⟩

/-- C1 (amended): on a tick whose portfolio-valuation fetch raises, the
failure is logged and the simulated fallback value is substituted: the
tick then behaves exactly like a tick with no wallet provider at all
(which also uses the simulated value) — the snapshot is recorded, the
drawdown guard is evaluated, the price is inserted into the window, the
signal is derived and a trade may execute; the loop continues unless the
guard halts on the fallback value. -/
theorem wallet_failure_behaves_as_fallback (cfg : Config) (simulated : ℚ)
    (now : ℤ) (price : ℚ) (m : String) (st : BotState) :
    (run_tick cfg simulated
      { now := now, fetched_price := some price,
        wallet := .balanceRaises m } st).walletErrorLogged = true ∧
    (run_tick cfg simulated
      { now := now, fetched_price := some price,
        wallet := .balanceRaises m } st).state =
      (run_tick cfg simulated
        { now := now, fetched_price := some price,
          wallet := .missing } st).state ∧
    (run_tick cfg simulated
      { now := now, fetched_price := some price,
        wallet := .balanceRaises m } st).haltLogged =
      (run_tick cfg simulated
        { now := now, fetched_price := some price,
          wallet := .missing } st).haltLogged ∧
    (run_tick cfg simulated
      { now := now, fetched_price := some price,
        wallet := .balanceRaises m } st).tradeSignal =
      (run_tick cfg simulated
        { now := now, fetched_price := some price,
          wallet := .missing } st).tradeSignal ∧
    (run_tick cfg simulated
      { now := now, fetched_price := some price,
        wallet := .balanceRaises m } st).tickLogged =
      (run_tick cfg simulated
        { now := now, fetched_price := some price,
          wallet := .missing } st).tickLogged := by
  simp only [run_tick, get_wallet_value]
  by_cases h : (check_daily_stop_loss cfg st.wallet_value_history now
    simulated).2
  · simp [h]
  · simp [h]

end SentinelAlpha
